import Mathlib

/-!
# ZimeDash — verification of the authorization / counter layer

Shallow embedding of the permission-evaluation layer, the ownership rules
and the task/project counter logic of the ZimeDash backend
(`config/roles.js`, `middlewares/auth.middleware.js`,
`middlewares/role.middleware.js`, `controllers/task.controller.js`,
`controllers/project.controller.js`, `controllers/user.controller.js`,
`controllers/auth.controller.js`), together with theorems settling the
specification claims about them.

JS conventions used throughout the embedding:
* an absent object key / `undefined` is `Option.none`;
* `null` dates are `Option.none` over `Nat` timestamps;
* JS string falsiness (`""` is falsy) is modelled where the source relies
  on it (`status || 'Pending'`, `if (name) ...`);
* a thrown exception in an otherwise-pure lookup is `Option.none` on the
  result type (`hasPermission` only).
-/

namespace ZimeDash

/-- JS `list.includes(x)` on string arrays (SameValueZero is plain equality
for strings). -/
def includes (l : List String) (a : String) : Bool :=
  decide (a ∈ l)

/-! ## `config/roles.js` -/

/-- A value stored under one key of a role's entry in the `PERMISSIONS`
object: the three resource keys hold arrays of action strings, the
`global` key holds a boolean. -/
inductive PermValue where
  | actions (l : List String)
  | flag (b : Bool)
deriving DecidableEq, Repr

/-- One role's entry in `PERMISSIONS`: keys `projects`, `tasks`, `users`
(action arrays) and `global` (boolean). -/
structure RolePerms where
  projects : List String
  tasks : List String
  users : List String
  globalFlag : Bool
deriving DecidableEq, Repr

/-- `PERMISSIONS[ROLES.ADMIN]` from `config/roles.js`. -/
def adminPerms : RolePerms :=
  { projects := ["create", "read", "update", "delete"]
    tasks := ["create", "read", "update", "delete"]
    users := ["read", "update"]
    globalFlag := true }

/-- `PERMISSIONS[ROLES.MANAGER]` from `config/roles.js`. -/
def managerPerms : RolePerms :=
  { projects := ["read", "update"]
    tasks := ["create", "read", "update", "delete"]
    users := ["read"]
    globalFlag := false }

/-- `PERMISSIONS[ROLES.MEMBER]` from `config/roles.js`. -/
def memberPerms : RolePerms :=
  { projects := ["read"]
    tasks := ["read", "update"]
    users := ["read"]
    globalFlag := false }

/-- `PERMISSIONS[role]`: own-key lookup on the `PERMISSIONS` object
literal; an unknown role key yields `undefined` (`none`). -/
def permissionsLookup (role : String) : Option RolePerms :=
  if role = "admin" then some adminPerms
  else if role = "manager" then some managerPerms
  else if role = "member" then some memberPerms
  else none

/-- `PERMISSIONS[role][resource]`: key lookup on a role's entry. The three
resource keys hold arrays, `global` holds a boolean, anything else is
`undefined` (`none`). -/
def resourceLookup (p : RolePerms) (resource : String) : Option PermValue :=
  if resource = "projects" then some (.actions p.projects)
  else if resource = "tasks" then some (.actions p.tasks)
  else if resource = "users" then some (.actions p.users)
  else if resource = "global" then some (.flag p.globalFlag)
  else none

/-- `hasPermission(role, resource, action)` from `config/roles.js`:

```js
if (!PERMISSIONS[role] || !PERMISSIONS[role][resource]) return false;
return PERMISSIONS[role][resource].includes(action);
```

An array value is always truthy, so the guard only stops `undefined` and
the boolean `false` (the `global` key of manager/member). When the value
is the boolean `true` (the `global` key of admin) the guard passes and
`true.includes(action)` throws a TypeError, modelled as `none`. -/
def hasPermission (role resource action : String) : Option Bool :=
  match permissionsLookup role with
  | none => some false
  | some p =>
    match resourceLookup p resource with
    | none => some false
    | some (.actions l) => some (includes l action)
    | some (.flag b) => if b then none else some false

/-- `hasGlobalAccess(role)` from `config/roles.js`:
`PERMISSIONS[role]?.global || false`. -/
def hasGlobalAccess (role : String) : Bool :=
  match permissionsLookup role with
  | none => false
  | some p => p.globalFlag

/-- Written from the spec's section-4.1 matrix (not from the code): the
allowed-action cell for each (role, resource) row of the table; every
cell outside the table is empty. For the spec, `global` is a flag, not a
resource column, so its cell is empty too. -/
def specMatrixRow (role resource : String) : List String :=
  if role = "admin" then
    if resource = "projects" then ["create", "read", "update", "delete"]
    else if resource = "tasks" then ["create", "read", "update", "delete"]
    else if resource = "users" then ["read", "update"]
    else []
  else if role = "manager" then
    if resource = "projects" then ["read", "update"]
    else if resource = "tasks" then ["create", "read", "update", "delete"]
    else if resource = "users" then ["read"]
    else []
  else if role = "member" then
    if resource = "projects" then ["read"]
    else if resource = "tasks" then ["read", "update"]
    else if resource = "users" then ["read"]
    else []
  else []

/-- Written from the spec: membership of a (role, resource, action) triple
in the section-4.1 matrix. -/
def specMatrix (role resource action : String) : Bool :=
  includes (specMatrixRow role resource) action

/-! ## Data model (`models/task.model.js`, `models/project.model.js`)

Only the fields the claims' logic reads or writes are carried; the other
schema fields (title, description text, priority, dates, tags,
dependencies, comments, archive flag) never influence the
authorization/counter decisions under study and are tracked by key name
only where an update body may mention them. -/

/-- A stored task document. `completedAt` is a nullable timestamp
(`default: null` in the schema), modelled as `Option Nat`. -/
structure Task where
  id : String
  projectId : String
  assignedTo : String
  createdBy : String
  status : String
  completedAt : Option Nat
deriving DecidableEq, Repr

/-- A stored project document. `members` holds the `members[].user` ids;
`totalTasks` and `completedTasks` default to 0 and are adjusted with
`$inc`, which can drive them negative, hence `Int`. -/
structure Project where
  id : String
  name : String
  description : String
  status : String
  createdBy : String
  members : List String
  totalTasks : Int
  completedTasks : Int
deriving DecidableEq, Repr

/-- The task status enum of `task.model.js`. -/
def taskStatusValues : List String := ["Pending", "Ongoing", "Done", "Blocked"]

/-! ## `controllers/task.controller.js` -/

/-- The request body of `PUT /api/tasks/:id` (`updateData`). A key absent
from the JSON body is `none`. `completedAtField` is the body's
`completedAt` key (the handler itself writes it on status transitions);
`otherFields` are the names of any further keys present (title,
description, priority, …) whose values the modelled task fields never
read. -/
structure TaskUpdate where
  status : Option String
  assignedTo : Option String
  completedAtField : Option (Option Nat)
  otherFields : List String
deriving DecidableEq, Repr

/-- `Object.keys(updateData)`. -/
def TaskUpdate.keys (u : TaskUpdate) : List String :=
  (match u.status with | some _ => ["status"] | none => []) ++
  (match u.assignedTo with | some _ => ["assignedTo"] | none => []) ++
  (match u.completedAtField with | some _ => ["completedAt"] | none => []) ++
  u.otherFields

/-- `Task.findByIdAndUpdate(id, updateData)`: each key present in the
body overwrites the stored field. -/
def applyTaskUpdate (t : Task) (u : TaskUpdate) : Task :=
  { t with
    status := u.status.getD t.status
    assignedTo := u.assignedTo.getD t.assignedTo
    completedAt := u.completedAtField.getD t.completedAt }

/-- Outcome of `updateTask` once the task has been found (the 404 branch
for a missing task id is outside this model). In the
`validationFailed` outcome the project is carried because the handler
applies the `$inc` on the project *before* the task write that
`runValidators` may reject. -/
inductive UpdateOutcome where
  | forbiddenNotYourTask
  | forbiddenFieldNotAllowed
  | validationFailed (project : Project)
  | ok (task : Task) (project : Project)
deriving DecidableEq, Repr

/-- `allowedFields` of the member branch of `updateTask`. -/
def memberAllowedFields : List String := ["status"]

/-- `updateTask` from `task.controller.js`, lines 159–238, for a found
task and its owning project.

* member branch: deny unless `currentTask.assignedTo === userId`, then
  deny if `Object.keys(updateData).some(f => !allowedFields.includes(f))`;
* completion handling: `updateData.status === 'Done' &&
  currentTask.status !== 'Done'` sets `updateData.completedAt = now` and
  `$inc completedTasks: 1`; `updateData.status !== 'Done' &&
  currentTask.status === 'Done'` sets `updateData.completedAt = null` and
  `$inc completedTasks: -1` — note the second condition is also true when
  the body has no `status` key at all (`undefined !== 'Done'`);
* then `findByIdAndUpdate` with `runValidators`, modelled for the status
  enum (the one field this logic inspects). -/
def updateTask (userRole userId : String) (now : Nat) (currentTask : Task)
    (project : Project) (updateData : TaskUpdate) : UpdateOutcome :=
  if userRole = "member" ∧ currentTask.assignedTo ≠ userId then
    .forbiddenNotYourTask
  else if userRole = "member" ∧
      updateData.keys.any (fun f => !(includes memberAllowedFields f)) then
    .forbiddenFieldNotAllowed
  else
    let step :=
      if updateData.status = some "Done" ∧ currentTask.status ≠ "Done" then
        ({ updateData with completedAtField := some (some now) },
         { project with completedTasks := project.completedTasks + 1 })
      else if updateData.status ≠ some "Done" ∧ currentTask.status = "Done" then
        ({ updateData with completedAtField := some none },
         { project with completedTasks := project.completedTasks - 1 })
      else (updateData, project)
    match step.1.status with
    | some s =>
      if includes taskStatusValues s then .ok (applyTaskUpdate currentTask step.1) step.2
      else .validationFailed step.2
    | none => .ok (applyTaskUpdate currentTask step.1) step.2

/-- The request body of `POST /api/tasks`. The handler's required-field
check uses JS truthiness, so an absent or empty string is uniformly
modelled as `""` for the three required fields. -/
structure CreateTaskBody where
  title : String
  projectId : String
  assignedTo : String
  status : Option String
deriving DecidableEq, Repr

/-- Outcome of `createTask`. -/
inductive CreateOutcome where
  | badRequest
  | projectNotFound
  | validationFailed
  | created (task : Task) (project : Project)
deriving DecidableEq, Repr

/-- `createTask` from `task.controller.js`, lines 83–152: require
title/projectId/assignedTo (JS-truthy), 404 when the project id resolves
to nothing, create the task with `status: status || 'Pending'` (schema
validates the enum; `completedAt` keeps its `null` default), then
`$inc totalTasks: 1` on the project. -/
def createTask (userId : String) (body : CreateTaskBody)
    (projectLookup : Option Project) (newTaskId : String) : CreateOutcome :=
  if body.title = "" ∨ body.projectId = "" ∨ body.assignedTo = "" then .badRequest
  else
    match projectLookup with
    | none => .projectNotFound
    | some project =>
      let status :=
        match body.status with
        | none => "Pending"
        | some s => if s = "" then "Pending" else s
      if !(includes taskStatusValues status) then .validationFailed
      else
        .created
          { id := newTaskId
            projectId := body.projectId
            assignedTo := body.assignedTo
            createdBy := userId
            status := status
            completedAt := none }
          { project with totalTasks := project.totalTasks + 1 }

/-- `deleteTask` from `task.controller.js`, lines 245–278, for a found
task: `$inc totalTasks: -1`, plus `$inc completedTasks: -1` when the
deleted task's status is `'Done'`; returns the owning project after the
adjustment (the task document itself is then removed). -/
def deleteTask (task : Task) (project : Project) : Project :=
  { project with
    totalTasks := project.totalTasks - 1
    completedTasks :=
      if task.status = "Done" then project.completedTasks - 1
      else project.completedTasks }

/-- Whether an `updateTask` outcome got past the member authorization
branch (i.e. was not one of its two 403 rejections). -/
def memberCheckPassed : UpdateOutcome → Bool
  | .forbiddenNotYourTask => false
  | .forbiddenFieldNotAllowed => false
  | .validationFailed _ => true
  | .ok _ _ => true

/-- Invariant claimed in the spec: `completedAt` is set iff `status` is
`'Done'`. -/
def taskCompletedAtInv (t : Task) : Bool :=
  t.completedAt.isSome == decide (t.status = "Done")

/-! ## Route guards (`routes/task.routes.js`, `middlewares/role.middleware.js`)
and the frontend delete capability -/

/-- The server-side path of `DELETE /api/tasks/:id`:
`router.delete('/:id', requirePermission('tasks', 'delete'), deleteTask)`.
The guard consults only `hasPermission(userRole, 'tasks', 'delete')`; the
handler then deletes unconditionally (no creator/ownership check), so the
caller's `userId` and the task/project contents never influence the
decision. `none` models a rejected request (401/403), `some` the project
counters after the performed deletion. -/
def taskDeleteRequest (role userId : String) (task : Task) (project : Project) :
    Option Project :=
  match hasPermission role "tasks" "delete" with
  | some true => some (deleteTask task project)
  | _ => none

/-- `canDeleteTask` from `frontend/src/app/dashboard/tasks/page.js`:
admin always, manager only when the task's project was created by the
logged-in user, member never. (`isAdmin()`/`isManager()` come from the
frontend AuthContext, not part of this snapshot; they test the logged-in
user's role string, per the role model.) -/
def canDeleteTaskUI (role userId projectCreatedBy : String) : Bool :=
  if role = "admin" then true
  else if role = "manager" ∧ projectCreatedBy = userId then true
  else false

/-! ## `controllers/project.controller.js` -/

/-- The document-store predicate built by `getAllProjects`
(`project.controller.js`, lines 343–385). When the caller's role lacks
global access the base query is `$or: [{createdBy: userId},
{'members.user': userId}]`, otherwise `{}`; a present `status` query
parameter is conjoined, and a present `search` parameter pushes a
`$and`-ed `$or` of case-insensitive regex tests on `name` and
`description`. `rmatch pattern text` stands for the store's
`$regex/$options:'i'` test with the given pattern; an absent (or
JS-falsy empty) query parameter is `none`. -/
def projectListQuery (rmatch : String → String → Bool) (userId role : String)
    (statusFilter searchFilter : Option String) (p : Project) : Bool :=
  (hasGlobalAccess role ||
    (decide (p.createdBy = userId) || includes p.members userId)) &&
  (match statusFilter with
   | none => true
   | some s => decide (p.status = s)) &&
  (match searchFilter with
   | none => true
   | some s => rmatch s p.name || rmatch s p.description)

/-- `Project.find(query)` for the listing: the stored projects matching
the built query. -/
def getAllProjects (rmatch : String → String → Bool) (userId role : String)
    (statusFilter searchFilter : Option String)
    (projects : List Project) : List Project :=
  projects.filter (projectListQuery rmatch userId role statusFilter searchFilter)

/-- The project document constructed by `createProject`
(`project.controller.js`, lines 419–467) for valid input: creator is the
caller, the supplied member user-ids become the members list, counters
start at the schema defaults 0/0, `status || 'Planned'`. -/
def createProject (userId newId name description : String)
    (status : Option String) (memberIds : List String) : Project :=
  { id := newId
    name := name
    description := description
    status :=
      match status with
      | none => "Planned"
      | some s => if s = "" then "Planned" else s
    createdBy := userId
    members := memberIds
    totalTasks := 0
    completedTasks := 0 }

/-! ## Users (`models/user.model.js`, `utils/hash.js`,
`controllers/auth.controller.js`, `controllers/user.controller.js`) -/

/-- A stored user document (fields the claims read). -/
structure UserRec where
  id : String
  name : String
  email : String
  role : String
  isActive : Bool
deriving DecidableEq, Repr

/-- JS `String.prototype.toLowerCase()` over the character list. -/
def jsToLowerCase (s : String) : String := ⟨s.data.map Char.toLower⟩

/-- JS `String.prototype.endsWith(suffix)` over the character lists. -/
def jsEndsWith (s suffix : String) : Bool := List.isSuffixOf suffix.data s.data

/-- The special-character class of `validatePassword` in `utils/hash.js`. -/
def passwordSpecialChars : String := "!@#$%^&*(),.?\":\x7b\x7d|<>"

/-- `validatePassword` from `utils/hash.js`: length ≥ 8, at least one of
each of A–Z, a–z, 0–9 and the special class (the JS regexes are
ASCII-literal classes, matching `Char.isUpper`/`isLower`/`isDigit`). -/
def validatePassword (password : String) : Bool :=
  decide (password.length ≥ 8) &&
  password.data.any (fun c => c.isUpper) &&
  password.data.any (fun c => c.isLower) &&
  password.data.any (fun c => c.isDigit) &&
  password.data.any (fun c => passwordSpecialChars.data.contains c)

/-- Outcome of `POST /api/auth/register`. -/
inductive RegisterOutcome where
  | badRequest
  | passwordInvalid
  | emailTaken
  | registered (user : UserRec)
deriving DecidableEq, Repr

/-- `register` from `auth.controller.js`, lines 15–84: require
name/email/password (JS-truthy), validate the password, reject a
duplicate email, then create the user with
`role: (isFirstUser || isZimeEmail) ? 'admin' : 'member'`, where
`isFirstUser` is `countDocuments() === 0` and `isZimeEmail` is
`email.toLowerCase().endsWith('@zime.ai')`; `isActive` keeps its schema
default `true`. -/
def register (existingUsers : List UserRec)
    (name email password newUserId : String) : RegisterOutcome :=
  if name = "" ∨ email = "" ∨ password = "" then .badRequest
  else if validatePassword password = false then .passwordInvalid
  else if existingUsers.any (fun u => decide (u.email = email)) then .emailTaken
  else
    .registered
      { id := newUserId
        name := name
        email := email
        role :=
          if existingUsers.length = 0 ∨
              jsEndsWith (jsToLowerCase email) "@zime.ai" = true then
            "admin"
          else "member"
        isActive := true }

/-- The request body of `PUT /api/users/:id` (`updateUser`). -/
structure UserUpdateBody where
  name : Option String
  email : Option String
  role : Option String
  isActive : Option Bool
deriving DecidableEq, Repr

/-- JS `if (field) updateData.field = field` on a string body field:
an absent key or an empty (falsy) string is not copied. -/
def strField : Option String → Option String
  | some s => if s = "" then none else some s
  | none => none

/-- `Object.values(ROLES)`: the user-role enum of `user.model.js`. -/
def roleValues : List String := ["admin", "manager", "member"]

/-- Outcome of the guarded `PUT /api/users/:id` request. -/
inductive UserUpdateOutcome where
  | forbidden
  | validationFailed
  | ok (user : UserRec)
deriving DecidableEq, Repr

/-- `PUT /api/users/:id`: `requireRole('admin')` then `updateUser`
(`user.controller.js`, lines 86–124) on a found target user. The handler
copies any truthy `name`/`email`/`role` and any present `isActive` into
`updateData` and writes it with `runValidators` (modelled for the role
enum). It performs no check relating the caller (`actorId`) to the
target (`targetId`): in particular none against changing one's own
role. -/
def updateUserRequest (actorRole actorId targetId : String) (target : UserRec)
    (body : UserUpdateBody) : UserUpdateOutcome :=
  if actorRole ≠ "admin" then .forbidden
  else
    match strField body.role with
    | some r =>
      if includes roleValues r then
        .ok
          { target with
            name := (strField body.name).getD target.name
            email := (strField body.email).getD target.email
            role := r
            isActive := body.isActive.getD target.isActive }
      else .validationFailed
    | none =>
      .ok
        { target with
          name := (strField body.name).getD target.name
          email := (strField body.email).getD target.email
          isActive := body.isActive.getD target.isActive }

/-- Outcome of the guarded `PUT /api/users/:id/role` request. -/
inductive RoleChangeOutcome where
  | forbidden
  | invalidRole
  | selfChangeDenied
  | ok (user : UserRec)
deriving DecidableEq, Repr

/-- `PUT /api/users/:id/role`: `requireRole('admin')` then
`updateUserRole` (`user.controller.js`, lines 168–216) on a found target:
400 on a role outside the enum, 400 when
`id === req.user._id.toString() && role !== 'admin'`, else write the
role. -/
def updateUserRoleRequest (actorRole actorId targetId : String)
    (target : UserRec) (newRole : String) : RoleChangeOutcome :=
  if actorRole ≠ "admin" then .forbidden
  else if !(includes roleValues newRole) then .invalidRole
  else if targetId = actorId ∧ newRole ≠ "admin" then .selfChangeDenied
  else .ok { target with role := newRole }

/-! ## `middlewares/auth.middleware.js` and guard composition -/

/-- Outcome of the `authenticate` middleware. -/
inductive AuthOutcome where
  | noToken
  | invalidToken
  | userNotFound
  | deactivated
  | authed (u : UserRec)

/-- `authenticate` from `auth.middleware.js`: extract the bearer token,
verify it (a throw from `verifyToken` is `none`), load the user by the
token's `userId`, reject with 401 when the user is missing or
`!user.isActive`, else attach the user and continue. -/
def authenticate (headerToken : Option String)
    (verifyToken : String → Option String)
    (findUser : String → Option UserRec) : AuthOutcome :=
  match headerToken with
  | none => .noToken
  | some t =>
    match verifyToken t with
    | none => .invalidToken
    | some uid =>
      match findUser uid with
      | none => .userNotFound
      | some u => if u.isActive = false then .deactivated else .authed u

/-- HTTP-level outcome of a protected route. -/
inductive HttpResponse where
  | unauthorized
  | forbidden
  | handled (body : String)
deriving DecidableEq, Repr

/-- A protected route as wired in every route file:
`router.use(authenticate)` (or per-route `authenticate`), then a
role/permission guard, then the handler. All four `authenticate`
rejections map to 401 before the guard or handler can run. -/
def runProtectedRoute (headerToken : Option String)
    (verifyToken : String → Option String)
    (findUser : String → Option UserRec)
    (guard : UserRec → Bool) (handler : UserRec → String) : HttpResponse :=
  match authenticate headerToken verifyToken findUser with
  | .authed u => if guard u then .handled (handler u) else .forbidden
  | _ => .unauthorized

/-! ## Concrete documents used by closed theorems -/

/-- The first-ever registered account (`a@x.com` → admin by the
first-user rule). -/
def firstUser : UserRec :=
  { id := "u1", name := "A", email := "a@x.com", role := "admin",
    isActive := true }

/-- A later account with a privileged-domain email. -/
def zimeUser : UserRec :=
  { id := "u2", name := "B", email := "b@zime.ai", role := "admin",
    isActive := true }

/-- A later account with an ordinary email. -/
def thirdUser : UserRec :=
  { id := "u3", name := "C", email := "c@x.com", role := "member",
    isActive := true }

/-- A later account with a mixed-case privileged-domain email. -/
def capsUser : UserRec :=
  { id := "u4", name := "D", email := "d@ZiMe.Ai", role := "admin",
    isActive := true }

/-- An admin acting on their own account. -/
def adminSelf : UserRec :=
  { id := "A", name := "Alice", email := "alice@zime.ai", role := "admin",
    isActive := true }

/-- A deactivated user document. -/
def inactiveUser : UserRec :=
  { id := "u1", name := "N", email := "n@x.com", role := "admin",
    isActive := false }

/-- A task in status `Done` assigned to member `m1`, created by `boss`. -/
def doneTask : Task :=
  { id := "t1", projectId := "p1", assignedTo := "m1", createdBy := "boss",
    status := "Done", completedAt := some 5 }

/-- The project owning `doneTask`; created by `boss`, 3 tasks, 1 done. -/
def doneTaskProject : Project :=
  { id := "p1", name := "P", description := "", status := "In Progress",
    createdBy := "boss", members := ["m1"], totalTasks := 3,
    completedTasks := 1 }

/-- An update body touching only the `title` key — no `status` key. -/
def titleOnlyUpdate : TaskUpdate :=
  { status := none, assignedTo := none, completedAtField := none,
    otherFields := ["title"] }

/-- A plain sample project created by `A` with no members. -/
def sampleProject : Project :=
  { id := "p2", name := "Q", description := "D", status := "Planned",
    createdBy := "A", members := [], totalTasks := 2, completedTasks := 1 }

/-- The task produced by creating a task with client-supplied status
`'Done'`: status `Done` but `completedAt` still `null`. -/
def c5DoneTask : Task :=
  { id := "t9", projectId := "p2", assignedTo := "m1", createdBy := "a1",
    status := "Done", completedAt := none }

/-- C1 (counterexample). The claim says `hasPermission` returns `false` on
every (role, resource, action) triple outside the section-4.1 matrix; at
`("admin", "global", "read")` — a triple outside the matrix — the source
instead evaluates `true.includes('read')`, throwing a TypeError rather
than returning `false`. -/
theorem C1_counterexample :
    hasPermission "admin" "global" "read" = none ∧
    hasPermission "admin" "global" "read" ≠ some false ∧
    specMatrix "admin" "global" "read" = false := by
  refine ⟨rfl, ?_, rfl⟩
  simp [hasPermission, permissionsLookup, resourceLookup, adminPerms]

/-- C1 (amended). Away from the one throwing input shape (role `admin`
with resource `global`), `hasPermission` returns `true` exactly on the
triples of the section-4.1 matrix and `false` everywhere else, including
unknown roles and unknown resources; and `hasGlobalAccess` is `true`
exactly for the role `admin`. -/
theorem C1_permission_matrix (role resource action : String)
    (h : ¬(role = "admin" ∧ resource = "global")) :
    hasPermission role resource action = some (specMatrix role resource action) ∧
    (hasGlobalAccess role = true ↔ role = "admin") := by
  constructor
  · unfold hasPermission permissionsLookup resourceLookup specMatrix specMatrixRow
      adminPerms managerPerms memberPerms
    by_cases h1 : role = "admin" <;> by_cases h2 : role = "manager" <;>
      by_cases h3 : role = "member" <;>
      by_cases r1 : resource = "projects" <;> by_cases r2 : resource = "tasks" <;>
      by_cases r3 : resource = "users" <;> by_cases r4 : resource = "global" <;>
      simp_all [includes]
  · unfold hasGlobalAccess permissionsLookup adminPerms managerPerms memberPerms
    by_cases h1 : role = "admin" <;> by_cases h2 : role = "manager" <;>
      by_cases h3 : role = "member" <;> simp_all

/-- C1 (witness): the amended theorem applied at the concrete triple
`("member", "tasks", "update")`. -/
theorem C1_permission_matrix_witness :
    hasPermission "member" "tasks" "update" =
      some (specMatrix "member" "tasks" "update") ∧
    (hasGlobalAccess "member" = true ↔ "member" = "admin") :=
  C1_permission_matrix "member" "tasks" "update" (by decide)

/-- C2. A task update by a caller with role `member` passes the
authorization branch exactly when the task is assigned to the caller and
every changed field is `status`; a member touching someone else's task is
rejected as `forbiddenNotYourTask` regardless of the fields, a member
touching a non-status field of their own task is rejected as
`forbiddenFieldNotAllowed`, and the two rejections are distinct. -/
theorem C2_member_update_policy (userId : String) (now : Nat) (task : Task)
    (project : Project) (u : TaskUpdate) :
    (memberCheckPassed (updateTask "member" userId now task project u) = true ↔
      (task.assignedTo = userId ∧ ∀ f ∈ u.keys, f = "status")) ∧
    (task.assignedTo ≠ userId →
      updateTask "member" userId now task project u = .forbiddenNotYourTask) ∧
    (task.assignedTo = userId → (∃ f ∈ u.keys, f ≠ "status") →
      updateTask "member" userId now task project u = .forbiddenFieldNotAllowed) ∧
    UpdateOutcome.forbiddenNotYourTask ≠ UpdateOutcome.forbiddenFieldNotAllowed := by
  have hany : (u.keys.any fun f => !(includes memberAllowedFields f)) = true ↔
      ∃ f ∈ u.keys, f ≠ "status" := by
    simp [List.any_eq_true, includes, memberAllowedFields]
  by_cases ha : task.assignedTo = userId
  · by_cases hf : (u.keys.any fun f => !(includes memberAllowedFields f)) = true
    · have hout : updateTask "member" userId now task project u =
          .forbiddenFieldNotAllowed := by
        unfold updateTask
        rw [if_neg (by simp [ha]), if_pos (by simp [hf])]
      refine ⟨?_, ?_, ?_, by simp⟩
      · rw [hout]
        simp only [memberCheckPassed, Bool.false_eq_true, false_iff, not_and]
        intro _ hall
        obtain ⟨f, hfmem, hfne⟩ := hany.mp hf
        exact hfne (hall f hfmem)
      · intro h; exact absurd ha h
      · intro _ _; exact hout
    · have hpass : memberCheckPassed
          (updateTask "member" userId now task project u) = true := by
        unfold updateTask
        rw [if_neg (by simp [ha]), if_neg (by simp [hf])]
        dsimp only
        split_ifs <;> (split <;> first | rfl | (split <;> rfl))
      refine ⟨?_, ?_, ?_, by simp⟩
      · rw [hpass]
        simp only [true_iff]
        refine ⟨ha, ?_⟩
        intro f hfmem
        by_contra hne
        exact hf (hany.mpr ⟨f, hfmem, hne⟩)
      · intro h; exact absurd ha h
      · intro _ hex; exact absurd (hany.mpr hex) hf
  · have hout : updateTask "member" userId now task project u =
        .forbiddenNotYourTask := by
      unfold updateTask
      rw [if_pos (by simp [ha])]
    refine ⟨?_, fun _ => hout, ?_, by simp⟩
    · rw [hout]
      simp only [memberCheckPassed, Bool.false_eq_true, false_iff, not_and]
      intro h
      exact absurd h ha
    · intro h _; exact absurd h ha

/-- C2 (witness): a member updating a task assigned to someone else, at a
concrete input, is rejected as not-your-task. -/
theorem C2_member_update_policy_witness :
    updateTask "member" "m1" 0
      { id := "t1", projectId := "p1", assignedTo := "m2", createdBy := "boss",
        status := "Pending", completedAt := none }
      { id := "p1", name := "P", description := "", status := "Planned",
        createdBy := "boss", members := ["m1", "m2"],
        totalTasks := 1, completedTasks := 0 }
      { status := some "Done", assignedTo := none, completedAtField := none,
        otherFields := [] } = .forbiddenNotYourTask :=
  (C2_member_update_policy "m1" 0
    { id := "t1", projectId := "p1", assignedTo := "m2", createdBy := "boss",
      status := "Pending", completedAt := none }
    { id := "p1", name := "P", description := "", status := "Planned",
      createdBy := "boss", members := ["m1", "m2"],
      totalTasks := 1, completedTasks := 0 }
    { status := some "Done", assignedTo := none, completedAtField := none,
      otherFields := [] }).2.1 (by decide)

/-- C3 (code bug, evaluated at the failing input). A successful update of
a `Done` task whose body contains no `status` key at all (here: only
`title`) must leave `completedTasks` and `completedAt` unchanged per the
claim; the code instead takes the `updateData.status !== 'Done'` branch
(`undefined !== 'Done'`), decrements `completedTasks` from 1 to 0 and
clears `completedAt`, while the task's status remains `Done`. -/
theorem C3_statusless_update_decrements :
    updateTask "admin" "a1" 99 doneTask doneTaskProject titleOnlyUpdate =
      .ok { doneTask with completedAt := none }
        { doneTaskProject with completedTasks := 0 } ∧
    doneTask.status = "Done" ∧
    titleOnlyUpdate.status = none ∧
    ({ doneTask with completedAt := none } : Task).status = "Done" := by
  decide

/-- C4 (counterexample). A manager who is not the creator of the task's
project (`doneTaskProject.createdBy = "boss" ≠ "m9"`) sends a delete
request for the task; the claim says the server denies it, but the route
guard `requirePermission('tasks', 'delete')` passes for every manager and
the handler deletes without any creator check. -/
theorem C4_counterexample :
    taskDeleteRequest "manager" "m9" doneTask doneTaskProject =
      some (deleteTask doneTask doneTaskProject) ∧
    doneTaskProject.createdBy ≠ "m9" := by
  refine ⟨rfl, by decide⟩

/-- C4 (amended). Server-side, a task-delete request is allowed exactly
when the caller's role is `admin` or `manager` — for managers regardless
of who created the task's project; the creator-only restriction for
managers exists only in the frontend's `canDeleteTask` display rule
(admin always, manager iff project creator, member never). Members are
always denied server-side. -/
theorem C4_server_delete_policy (role userId : String) (task : Task)
    (project : Project) :
    ((taskDeleteRequest role userId task project).isSome = true ↔
      role = "admin" ∨ role = "manager") ∧
    (∀ uid creator : String, canDeleteTaskUI "admin" uid creator = true) ∧
    (∀ uid creator : String,
      canDeleteTaskUI "manager" uid creator = true ↔ creator = uid) ∧
    (∀ uid creator : String, canDeleteTaskUI "member" uid creator = false) := by
  refine ⟨?_, fun uid creator => rfl, ?_, fun uid creator => rfl⟩
  · unfold taskDeleteRequest hasPermission permissionsLookup resourceLookup
      adminPerms managerPerms memberPerms includes
    by_cases h1 : role = "admin" <;> by_cases h2 : role = "manager" <;>
      by_cases h3 : role = "member" <;> simp_all
  · intro uid creator
    unfold canDeleteTaskUI
    by_cases h : creator = uid <;> simp [h]

/-- C5 (counterexample). The public create operation accepts a
client-supplied status `'Done'` and stores the task with `completedAt`
still `null`, reaching a state where `status = Done` but `completedAt` is
unset — the claimed invariant fails. -/
theorem C5_counterexample :
    createTask "a1"
      { title := "T", projectId := "p2", assignedTo := "m1",
        status := some "Done" }
      (some sampleProject) "t9" =
      .created c5DoneTask { sampleProject with totalTasks := 3 } ∧
    taskCompletedAtInv c5DoneTask = false := by
  decide

/-- C5 (amended). The invariant `completedAt` set iff `status = Done`
holds for every task created with a non-`Done` client status, and is
preserved by every successful update whose body carries a `status` key
and no client `completedAt` key; it fails in general (creation with
status `Done`, or a status-less update of a `Done` task). -/
theorem C5_completedAt_invariant_guarded :
    (∀ (userId : String) (body : CreateTaskBody) (project : Project)
        (newTaskId : String) (task : Task) (project' : Project),
      body.status ≠ some "Done" →
      createTask userId body (some project) newTaskId = .created task project' →
      taskCompletedAtInv task = true) ∧
    (∀ (role userId : String) (now : Nat) (task : Task) (project : Project)
        (u : TaskUpdate) (task' : Task) (project' : Project),
      taskCompletedAtInv task = true →
      u.status.isSome = true →
      u.completedAtField = none →
      updateTask role userId now task project u = .ok task' project' →
      taskCompletedAtInv task' = true) := by
  constructor
  · intro userId body project newTaskId task project' hne h
    unfold createTask at h
    dsimp only at h
    split_ifs at h with h1 h2
    rw [CreateOutcome.created.injEq] at h
    obtain ⟨rfl, rfl⟩ := h
    cases hb : body.status with
    | none => simp [taskCompletedAtInv, hb]
    | some s =>
      have hsne : s ≠ "Done" := by
        intro hcontra; exact hne (hb.trans (by rw [hcontra]))
      by_cases hs0 : s = ""
      · simp [taskCompletedAtInv, hb, hs0]
      · simp [taskCompletedAtInv, hb, hs0, hsne]
  · intro role userId now task project u task' project' hinv hs hc h
    obtain ⟨s, hs⟩ := Option.isSome_iff_exists.mp hs
    obtain ⟨us, ua, uc, uo⟩ := u
    dsimp only at hs hc
    subst hs
    subst hc
    unfold updateTask at h
    split_ifs at h with hm1 hm2 hA hB
    · -- non-Done → Done transition: completedAt := now
      obtain ⟨hA1, hA2⟩ := hA
      dsimp only at hA1
      injection hA1 with hA1
      subst hA1
      dsimp only at h
      rw [if_pos (show includes taskStatusValues "Done" = true from by decide)] at h
      rw [UpdateOutcome.ok.injEq] at h
      obtain ⟨rfl, rfl⟩ := h
      simp [taskCompletedAtInv, applyTaskUpdate]
    · -- Done → non-Done transition: completedAt := null
      obtain ⟨hB1, hB2⟩ := hB
      dsimp only at hB1
      have hsne : s ≠ "Done" := fun hcontra => hB1 (by rw [hcontra])
      dsimp only at h
      split_ifs at h with hv
      rw [UpdateOutcome.ok.injEq] at h
      obtain ⟨rfl, rfl⟩ := h
      simp [taskCompletedAtInv, applyTaskUpdate, hsne]
    · -- no transition: completedAt untouched
      dsimp only at h
      split_ifs at h with hv
      rw [UpdateOutcome.ok.injEq] at h
      obtain ⟨rfl, rfl⟩ := h
      by_cases hsd : s = "Done"
      · have htd : task.status = "Done" := by
          by_contra htn
          exact hA ⟨by dsimp only; rw [hsd], htn⟩
        have hca : task.completedAt.isSome = true := by
          simpa [taskCompletedAtInv, htd] using hinv
        simp [taskCompletedAtInv, applyTaskUpdate, hsd, hca]
      · have htd : task.status ≠ "Done" := by
          intro htn
          exact hB ⟨by dsimp only; simpa using hsd, htn⟩
        have hca : task.completedAt.isSome = false := by
          simpa [taskCompletedAtInv, htd] using hinv
        simp [taskCompletedAtInv, applyTaskUpdate, hsd, htd, hca]

/-- C5 (witness): the amended preservation part applied at a concrete
input — a member moving their own `Pending` task to `Done` keeps the
invariant. -/
theorem C5_completedAt_invariant_guarded_witness :
    taskCompletedAtInv
      { id := "t1", projectId := "p1", assignedTo := "m1", createdBy := "boss",
        status := "Done", completedAt := some 7 } = true :=
  C5_completedAt_invariant_guarded.2 "member" "m1" 7
    { id := "t1", projectId := "p1", assignedTo := "m1", createdBy := "boss",
      status := "Pending", completedAt := none }
    doneTaskProject
    { status := some "Done", assignedTo := none, completedAtField := none,
      otherFields := [] }
    { id := "t1", projectId := "p1", assignedTo := "m1", createdBy := "boss",
      status := "Done", completedAt := some 7 }
    { doneTaskProject with completedTasks := 2 }
    (by decide) (by decide) rfl (by decide)

/-- C6. Every successful creation increments the owning project's
`totalTasks` by exactly 1 (leaving `completedTasks` untouched); every
deletion decrements `totalTasks` by exactly 1 and decrements
`completedTasks` by exactly 1 iff the deleted task's status was `Done`. -/
theorem C6_task_counters :
    (∀ (userId : String) (body : CreateTaskBody) (project : Project)
        (newTaskId : String) (task : Task) (project' : Project),
      createTask userId body (some project) newTaskId = .created task project' →
        project'.totalTasks = project.totalTasks + 1 ∧
        project'.completedTasks = project.completedTasks) ∧
    (∀ (task : Task) (project : Project),
      (deleteTask task project).totalTasks = project.totalTasks - 1 ∧
      (deleteTask task project).completedTasks =
        project.completedTasks - (if task.status = "Done" then 1 else 0)) := by
  constructor
  · intro userId body project newTaskId task project' h
    unfold createTask at h
    dsimp only at h
    split_ifs at h with h1 h2
    rw [CreateOutcome.created.injEq] at h
    obtain ⟨rfl, rfl⟩ := h
    exact ⟨rfl, rfl⟩
  · intro task project
    unfold deleteTask
    refine ⟨rfl, ?_⟩
    split_ifs <;> simp

/-- C6 (witness): the creation half applied at a concrete input. -/
theorem C6_task_counters_witness :
    ({ sampleProject with totalTasks := 3 } : Project).totalTasks =
      sampleProject.totalTasks + 1 ∧
    ({ sampleProject with totalTasks := 3 } : Project).completedTasks =
      sampleProject.completedTasks :=
  C6_task_counters.1 "a1"
    { title := "T", projectId := "p2", assignedTo := "m1", status := none }
    sampleProject "t2"
    { id := "t2", projectId := "p2", assignedTo := "m1", createdBy := "a1",
      status := "Pending", completedAt := none }
    { sampleProject with totalTasks := 3 }
    (by decide)

/-- C7. A project appears in a listing exactly when it is stored, the
caller has global access or is its creator or one of its members, and
every present status/search filter matches it (filters only ever narrow
the ownership scope); in particular a project created by admin `A` with
no members is absent from non-member `M`'s listing and present in `A`'s
own listing. -/
theorem C7_project_visibility (rmatch : String → String → Bool)
    (userId role : String) (statusFilter searchFilter : Option String)
    (projects : List Project) :
    (∀ p : Project,
      p ∈ getAllProjects rmatch userId role statusFilter searchFilter projects ↔
        p ∈ projects ∧
        (hasGlobalAccess role = true ∨ p.createdBy = userId ∨ userId ∈ p.members) ∧
        (∀ s, statusFilter = some s → p.status = s) ∧
        (∀ s, searchFilter = some s →
          (rmatch s p.name = true ∨ rmatch s p.description = true))) ∧
    getAllProjects rmatch "M" "member" none none
      [createProject "A" "p1" "P" "desc" none []] = [] ∧
    getAllProjects rmatch "A" "admin" none none
      [createProject "A" "p1" "P" "desc" none []] =
      [createProject "A" "p1" "P" "desc" none []] := by
  refine ⟨?_, ?_, ?_⟩
  · intro p
    cases statusFilter <;> cases searchFilter <;>
      simp [getAllProjects, List.mem_filter, projectListQuery, includes,
        and_assoc]
  · simp [getAllProjects, List.filter, projectListQuery, includes,
      createProject, hasGlobalAccess, permissionsLookup, memberPerms]
  · simp [getAllProjects, List.filter, projectListQuery, includes,
      createProject, hasGlobalAccess, permissionsLookup, adminPerms]

/-- C8. A registration that creates an account grants role `admin` iff no
account existed before it or the email ends (after lowercasing) in
`@zime.ai`, and `member` otherwise — and the concrete scenario: first
account `a@x.com` → admin, then `b@zime.ai` → admin, then `c@x.com` →
member, and a mixed-case `d@ZiMe.Ai` → admin. -/
theorem C8_registration_role :
    (∀ (existingUsers : List UserRec) (name email password newUserId : String)
        (u : UserRec),
      register existingUsers name email password newUserId = .registered u →
        ((u.role = "admin" ↔
          existingUsers = [] ∨ jsEndsWith (jsToLowerCase email) "@zime.ai" = true) ∧
         (u.role = "admin" ∨ u.role = "member"))) ∧
    register [] "A" "a@x.com" "Passw0rd!" "u1" = .registered firstUser ∧
    register [firstUser] "B" "b@zime.ai" "Passw0rd!" "u2" =
      .registered zimeUser ∧
    register [firstUser, zimeUser] "C" "c@x.com" "Passw0rd!" "u3" =
      .registered thirdUser ∧
    register [firstUser] "D" "d@ZiMe.Ai" "Passw0rd!" "u4" =
      .registered capsUser ∧
    firstUser.role = "admin" ∧ zimeUser.role = "admin" ∧
    thirdUser.role = "member" ∧ capsUser.role = "admin" := by
  refine ⟨?_, by decide, by decide, by decide, by decide, rfl, rfl, rfl, rfl⟩
  intro existingUsers name email password newUserId u h
  unfold register at h
  split_ifs at h with hb hp he hrole
  · rw [RegisterOutcome.registered.injEq] at h
    subst h
    refine ⟨?_, Or.inl rfl⟩
    simp only [true_iff]
    rcases hrole with h0 | hz
    · exact Or.inl (List.length_eq_zero.mp h0)
    · exact Or.inr hz
  · rw [RegisterOutcome.registered.injEq] at h
    subst h
    constructor
    · simp only [show ("member" = "admin") ↔ False from by simp, false_iff]
      rintro (h0 | hz)
      · exact hrole (Or.inl (by simp [h0]))
      · exact hrole (Or.inr hz)
    · exact Or.inr rfl

/-- C8 (witness): the quantified part applied to the first-ever
registration. -/
theorem C8_registration_role_witness :
    (firstUser.role = "admin" ↔
      ([] : List UserRec) = [] ∨
        jsEndsWith (jsToLowerCase "a@x.com") "@zime.ai" = true) ∧
    (firstUser.role = "admin" ∨ firstUser.role = "member") :=
  C8_registration_role.1 [] "A" "a@x.com" "Passw0rd!" "u1" firstUser (by decide)

/-- C9 (code bug, evaluated at the failing input). The claim: every
operation that can write a user's role denies an admin any self-assigned
value other than admin. The dedicated role endpoint does deny it, but the
general admin-only `updateUser` handler copies a truthy `role` from the
body with no self-check, so admin `A` targeting themselves with
`{ role: 'manager' }` succeeds and leaves their stored role `manager`. -/
theorem C9_self_role_change_divergence :
    updateUserRequest "admin" "A" "A" adminSelf
      { name := none, email := none, role := some "manager",
        isActive := none } =
      .ok { adminSelf with role := "manager" } ∧
    ({ adminSelf with role := "manager" } : UserRec).role ≠ "admin" ∧
    updateUserRoleRequest "admin" "A" "A" adminSelf "manager" =
      .selfChangeDenied := by
  decide

/-- C10. If the token of a protected request identifies a stored user
whose `isActive` is false, `authenticate` answers 401 before any guard or
handler can run — the response is `unauthorized` for every guard and
handler — and conversely any request that reaches the authenticated state
carries a user with `isActive = true`. -/
theorem C10_deactivated_rejected (headerToken : Option String)
    (verifyToken : String → Option String)
    (findUser : String → Option UserRec) (guard : UserRec → Bool)
    (handler : UserRec → String) (t uid : String) (u : UserRec) :
    (headerToken = some t → verifyToken t = some uid → findUser uid = some u →
      u.isActive = false →
      runProtectedRoute headerToken verifyToken findUser guard handler =
        .unauthorized) ∧
    (∀ v : UserRec, authenticate headerToken verifyToken findUser = .authed v →
      v.isActive = true) := by
  constructor
  · intro ht hv hf hi
    unfold runProtectedRoute authenticate
    rw [ht]
    dsimp only
    rw [hv]
    dsimp only
    rw [hf]
    dsimp only
    rw [if_pos hi]
  · intro v hauth
    unfold authenticate at hauth
    cases hT : headerToken with
    | none => rw [hT] at hauth; simp at hauth
    | some t' =>
      rw [hT] at hauth
      dsimp only at hauth
      cases hV : verifyToken t' with
      | none => rw [hV] at hauth; simp at hauth
      | some uid' =>
        rw [hV] at hauth
        dsimp only at hauth
        cases hF : findUser uid' with
        | none => rw [hF] at hauth; simp at hauth
        | some w =>
          rw [hF] at hauth
          dsimp only at hauth
          split_ifs at hauth with hw
          rw [AuthOutcome.authed.injEq] at hauth
          subst hauth
          simpa using hw

/-- C10 (witness): a deactivated user's request at concrete token, guard
and handler functions is answered 401. -/
theorem C10_deactivated_rejected_witness :
    runProtectedRoute (some "tok") (fun _ => some "u1")
      (fun _ => some inactiveUser)
      (fun _ => true) (fun _ => "data") = .unauthorized :=
  (C10_deactivated_rejected (some "tok") (fun _ => some "u1")
    (fun _ => some inactiveUser)
    (fun _ => true) (fun _ => "data") "tok" "u1" inactiveUser).1
    rfl rfl rfl rfl

end ZimeDash
